import Mathlib

/-!
Shallow embedding of the alignment-and-interaction engine of the
Tokenizer-utility frontend (src/frontend/src/App.jsx).

The component is a single React function component.  We embed:
  * the data model (`Mode`, `StatusVal`, `Token`, `AppState`);
  * the decode-input sanitizer of `processInput` (lines 61-65);
  * the synchronous part of `processInput` (lines 35-72): the empty-input
    branch, the decode no-op branch, and the request payload it produces;
  * the asynchronous continuation of `processInput` (lines 80-95): what a
    fetch response does to the state when it is applied;
  * the mode-switch handler of the `<select>` element (lines 246-253);
  * the `visualizedText` sync effect (lines 25-29);
  * the character-to-token resolution (`tokens.findIndex`, lines 121, 193);
  * the click handlers `onTokenClick` / `onCharClick` (lines 176-205);
  * the highlight predicate of the character view (lines 287-296);
  * the debounce effect (lines 99-106) as a small event-trace semantics.

JavaScript specifics and how they are modelled:
  * a token object from a decode response may lack `start`/`end`; the
    comparisons `t.start <= i` / `i < t.end` are `false` when the field is
    `undefined`, so spans are `Option Int` and a missing field never covers;
  * `errorData.detail || 'Failed to process'` falls through to the generic
    message when `detail` is absent OR the empty string (both falsy);
  * `!inputVal` on a string is the empty-string test, `inputVal.trim()` is
    truthy iff some non-whitespace character remains;
  * `Number(s)` applied to a string already stripped to digits and minus
    signs is a number exactly when the string is an optional leading minus
    followed by at least one digit (`Number("")` is 0, but empty pieces are
    filtered out first; `Number("-")`, `Number("1-2")`, `Number("5-")` are
    all `NaN`); values are modelled as exact integers;
  * `tokens[i]` is `List.get?`; `findIndex` returning -1 is `Option Nat`.
-/

/-- The two UI modes: `'tokenize' | 'decode'` (App.jsx line 14). -/
inductive Mode where
  | tokenize
  | decode
deriving DecidableEq, Repr

/-- A status value `{ status, message }` (App.jsx line 8).  The `status`
field only ever takes the values `'ready' | 'progress' | 'error'`. -/
inductive StatusVal where
  | ready (message : String)
  | progress (message : String)
  | error (message : String)
deriving DecidableEq, Repr

/-- A token from a response: `{ id, text, start, end }`.  Decode responses
may omit the positional fields, hence `Option Int` (App.jsx line 22 of the
spec data model; undefined comparisons are false in JS). -/
structure Token where
  id : Int
  text : String
  start : Option Int
  stop : Option Int
deriving DecidableEq, Repr

/-- The React state of the component (App.jsx lines 6-17, 133).  `status`
starts as `null`, hence `Option StatusVal`. -/
structure AppState where
  text : String
  modelId : String
  status : Option StatusVal
  tokens : List Token
  hoveredTokenIndex : Option Nat
  hoveredCharIndex : Option Nat
  activeTokenIndex : Option Nat
  mode : Mode
  visualizedText : String
deriving DecidableEq, Repr

/-! ### Decode-input sanitizing (App.jsx lines 61-65)

```
const ids = inputVal.split(',')
  .map(s => s.replace(/[^\d-]/g, '').trim())
  .filter(s => s.length > 0)
  .map(Number)
  .filter(n => !isNaN(n));
```
-/

/-- `String.prototype.split(',')` on the character list: split on every
comma; `"".split(',')` is `[""]`, `"a,".split(',')` is `["a",""]`. -/
def splitComma : List Char → List (List Char)
  | [] => [[]]
  | c :: cs =>
    if c = ',' then [] :: splitComma cs
    else
      match splitComma cs with
      | [] => [[c]]
      | p :: ps => (c :: p) :: ps

/-- Whitespace as recognized by `String.prototype.trim` (the characters
that can actually occur here are ASCII). -/
def jsIsWhitespace (c : Char) : Bool :=
  c = ' ' ∨ c = '\t' ∨ c = '\n' ∨ c = '\r' ∨ c = '\x0b' ∨ c = '\x0c'

/-- `String.prototype.trim` on the character list. -/
def jsTrim (cs : List Char) : List Char :=
  ((cs.dropWhile jsIsWhitespace).reverse.dropWhile jsIsWhitespace).reverse

/-- `s.replace(/[^\d-]/g, '')`: keep only decimal digits and minus signs
(every minus sign, wherever it occurs). -/
def stripNonDigitMinus (cs : List Char) : List Char :=
  cs.filter (fun c => c.isDigit ∨ c = '-')

/-- Numeric value of a list of decimal digits. -/
def digitsVal (cs : List Char) : Int :=
  cs.foldl (fun acc c => acc * 10 + (c.toNat - '0'.toNat)) 0

/-- `Number(s)` followed by the `isNaN` filter, on a piece already stripped
to digits and minus signs: defined (as an exact integer) exactly when the
piece is an optional leading minus followed by one or more digits. -/
def jsNumOfPiece (cs : List Char) : Option Int :=
  match cs with
  | [] => some 0
  | c :: rest =>
    if c = '-' then
      if rest ≠ [] ∧ rest.all Char.isDigit then some (-(digitsVal rest)) else none
    else
      if (c :: rest).all Char.isDigit then some (digitsVal (c :: rest)) else none

/-- The full sanitizing pipeline of App.jsx lines 61-65. -/
def sanitizeIds (inputVal : String) : List Int :=
  ((((splitComma inputVal.data).map
      (fun s => jsTrim (stripNonDigitMinus s))).filter
      (fun s => s.length > 0)).filterMap jsNumOfPiece)

/-! ### The parsing policy as worded by the specification (for claim C3)

"split on `,`; for each piece, strip every character that is not a digit or
a leading minus sign, trim whitespace, discard pieces that become empty,
convert to integer, discard non-numeric results."
-/

/-- Modelled from the spec's words, for comparison with the source's
`stripNonDigitMinus`: keep digits, and keep a minus sign only when it is
the leading character of the piece. -/
def stripSpecPolicy (cs : List Char) : List Char :=
  match cs with
  | [] => []
  | c :: rest =>
    (if c.isDigit ∨ c = '-' then [c] else []) ++ rest.filter Char.isDigit

/-- "convert to integer, discard non-numeric results": an integer is an
optional leading minus followed by at least one digit. -/
def specPolicyToInt (cs : List Char) : Option Int :=
  match cs with
  | [] => none
  | c :: rest =>
    if c = '-' then
      if rest ≠ [] ∧ rest.all Char.isDigit then some (-(digitsVal rest)) else none
    else
      if (c :: rest).all Char.isDigit then some (digitsVal (c :: rest)) else none

/-- The spec-worded parsing pipeline, to be compared with `sanitizeIds`. -/
def sanitizeIdsSpecPolicy (inputVal : String) : List Int :=
  ((((splitComma inputVal.data).map
      (fun s => jsTrim (stripSpecPolicy s))).filter
      (fun s => s.length > 0)).filterMap specPolicyToInt)

/-- The amended description of the source's pipeline: the strip step keeps
every minus sign (`stripNonDigitMinus`), and the conversion step accepts
exactly an optional leading minus followed by digits. -/
def sanitizeIdsAmended (inputVal : String) : List Int :=
  ((((splitComma inputVal.data).map
      (fun s => jsTrim (stripNonDigitMinus s))).filter
      (fun s => s.length > 0)).filterMap specPolicyToInt)

/-! ### Character-to-token resolution (App.jsx lines 121, 193, 285)

`tokens.findIndex(t => t.start <= index && index < t.end)`; a missing
`start` or `end` makes the comparison false in JS, so such tokens are
skipped. -/

/-- `t.start <= index && index < t.end`, false when either field is
missing. -/
def covers (t : Token) (c : Int) : Bool :=
  match t.start, t.stop with
  | some s, some e => s ≤ c ∧ c < e
  | _, _ => false

/-- `Array.prototype.findIndex` over the token list, tracking the index. -/
def findTokenIndexAux (c : Int) : List Token → Nat → Option Nat
  | [], _ => none
  | t :: ts, i => if covers t c then some i else findTokenIndexAux c ts (i + 1)

/-- The alignment resolution: first token (in list order) whose half-open
span covers the character index, `none` when no token covers it
(`findIndex` returning -1). -/
def findTokenIndex (ts : List Token) (c : Int) : Option Nat :=
  findTokenIndexAux c ts 0

/-- The three response tokens of the spec's section-8 tokenize scenario,
with spans `[0,5)`, `[5,11)`, `[11,12)`. -/
def ex8Tokens : List Token :=
  [ { id := 1, text := "Hello", start := some 0, stop := some 5 },
    { id := 2, text := " world", start := some 5, stop := some 11 },
    { id := 3, text := ".", start := some 11, stop := some 12 } ]

/-! ### The synchronous part of `processInput` (App.jsx lines 35-72) -/

/-- A request payload: `{text, model_id}` against `/api/tokenize` or
`{ids, model_id}` against `/api/decode`. -/
inductive ReqBody where
  | tokenizeReq (text : String) (modelId : String)
  | decodeReq (ids : List Int) (modelId : String)
deriving DecidableEq, Repr

/-- Result of running `processInput` up to (and excluding) the `fetch`:
the state updates performed synchronously and the request dispatched, if
any. -/
structure SyncResult where
  state : AppState
  request : Option ReqBody
deriving DecidableEq, Repr

/-- The `setStatus(prev => ...)` updater of the empty-input branch
(App.jsx lines 41-46): reset to `ready`/`"Ready"` iff the previous status
was null, `progress` or `error`; keep an existing `ready` message. -/
def emptyInputStatusUpdate : Option StatusVal → Option StatusVal
  | none => some (.ready "Ready")
  | some (.progress _) => some (.ready "Ready")
  | some (.error _) => some (.ready "Ready")
  | some s => some s

/-- `processInput(inputVal)` up to the `fetch`.  `capturedMode` and
`capturedModelId` are the values closed over by the `useCallback` (App.jsx
line 96); `inputVal` is the text passed by the debounce timer.  `!inputVal`
on a string is the empty-string test; `inputVal.trim()` is truthy iff
trimming leaves a nonempty string. -/
def processInputSync (capturedMode : Mode) (capturedModelId : String)
    (inputVal : String) (st : AppState) : SyncResult :=
  if inputVal = "" then
    { state := { st with
        tokens := []
        visualizedText := ""
        status := emptyInputStatusUpdate st.status }
      request := none }
  else
    match capturedMode with
    | .tokenize =>
      { state := st, request := some (.tokenizeReq inputVal capturedModelId) }
    | .decode =>
      let ids := sanitizeIds inputVal
      if ids = [] ∧ jsTrim inputVal.data ≠ [] then
        { state := st, request := none }
      else
        { state := st, request := some (.decodeReq ids capturedModelId) }

/-! ### The asynchronous continuation of `processInput` (App.jsx 74-95) -/

/-- Outcome of the `fetch`: a 200 response (`{tokens, text?}`), a non-ok
HTTP response whose JSON body may carry a `detail` field, or a transport
error carrying the thrown message. -/
inductive FetchResult where
  | success (tokens : List Token) (text : String)
  | httpError (detail : Option String)
  | transportError (message : String)
deriving DecidableEq, Repr

/-- `errorData.detail || 'Failed to process'`: an absent detail and an
empty-string detail are both falsy and fall through to the generic
message. -/
def failureMessage : Option String → String
  | some d => if d = "" then "Failed to process" else d
  | none => "Failed to process"

/-- What the continuation of the `fetch` does to the state when the
response is applied (App.jsx lines 80-95).  On success it replaces the
token list and, when the closed-over mode is `decode`, the visualized
text; on failure (non-ok response or transport error) it only sets the
error status.  There is no request-generation check: whatever response
arrives is applied to whatever the current state is. -/
def applyResponse (capturedMode : Mode) (r : FetchResult) (st : AppState) : AppState :=
  match r with
  | .success toks txt =>
    let st1 := { st with tokens := toks }
    if capturedMode = .decode then { st1 with visualizedText := txt } else st1
  | .httpError detail =>
    { st with status := some (.error (failureMessage detail)) }
  | .transportError msg =>
    { st with status := some (.error msg) }

/-! ### Mode switch and visualized-text sync -/

/-- The `<select>` option strings for the two modes. -/
def modeLabel : Mode → String
  | .tokenize => "tokenize"
  | .decode => "decode"

/-- The mode `<select>` onChange handler (App.jsx lines 246-253): set the
new mode, clear tokens, visualized text and raw input, and set a `ready`
status naming the model and the new mode.  It does NOT touch
`hoveredTokenIndex`, `hoveredCharIndex` or `activeTokenIndex`. -/
def switchMode (newMode : Mode) (st : AppState) : AppState :=
  { st with
    mode := newMode
    tokens := []
    visualizedText := ""
    text := ""
    status := some (.ready ("Model set to " ++ st.modelId ++ " (Mode: "
      ++ modeLabel newMode ++ ")")) }

/-- The sync effect on `[text, mode]` (App.jsx lines 25-29): in tokenize
mode copy the raw input into the visualized text.  React runs it only
after a render in which `text` or `mode` changed — in particular it does
NOT re-run when a late response merely sets `visualizedText`. -/
def syncVisualizedText (st : AppState) : AppState :=
  if st.mode = .tokenize then { st with visualizedText := st.text } else st

/-! ### Click handlers and highlight predicate (App.jsx 176-205, 287-296) -/

/-- A `scrollToId` side effect: `char-${pos}` in the character view or
`token-${idx}` in the token view. -/
inductive ScrollTarget where
  | charAt (pos : Int)
  | tokenAt (idx : Nat)
deriving DecidableEq, Repr

/-- `onTokenClick` (App.jsx lines 176-188): toggle off when the chip is the
active selection (also clearing the hover); otherwise select it and, when
the token exists and has a numeric `start`, scroll the character view
there. -/
def onTokenClick (st : AppState) (i : Nat) : AppState × Option ScrollTarget :=
  if st.activeTokenIndex = some i then
    ({ st with activeTokenIndex := none, hoveredTokenIndex := none }, none)
  else
    ({ st with activeTokenIndex := some i },
      (st.tokens[i]?).bind (fun t => t.start.map ScrollTarget.charAt))

/-- `onCharClick` (App.jsx lines 190-205): resolve the character to a token
index; if resolved, apply the chip toggle rule (scrolling the token view on
select); if unresolved, clear the active selection. -/
def onCharClick (st : AppState) (c : Int) : AppState × Option ScrollTarget :=
  match findTokenIndex st.tokens c with
  | some ti =>
    if st.activeTokenIndex = some ti then
      ({ st with activeTokenIndex := none, hoveredTokenIndex := none }, none)
    else
      ({ st with activeTokenIndex := some ti }, some (.tokenAt ti))
  | none =>
    ({ st with activeTokenIndex := none }, none)

/-- `idx !== null && tokens[idx] && index >= tokens[idx].start && index <
tokens[idx].end`: the span test guarded by existence of the indexed token
(App.jsx lines 288-296). -/
def spanHas (tokens : List Token) (idx : Option Nat) (c : Int) : Bool :=
  match idx with
  | some i =>
    match tokens[i]? with
    | some t => covers t c
    | none => false
  | none => false

/-- The `isActive` part of the highlight computation for character `c`. -/
def isActiveChar (st : AppState) (c : Int) : Bool :=
  spanHas st.tokens st.activeTokenIndex c

/-- The `isHighlighted` predicate of the character view (App.jsx lines
293-296): under the hovered token's span, or under the active token's
span. -/
def isHighlightedChar (st : AppState) (c : Int) : Bool :=
  spanHas st.tokens st.hoveredTokenIndex c ∨ isActiveChar st c

/-! ### The debounce effect as an event-trace semantics (App.jsx 99-106)

```
useEffect(() => {
  if (status?.status === 'ready' || status?.status === 'progress'
      || status?.status === 'error') {
    const timer = setTimeout(() => { processInput(text); }, 500);
    return () => clearTimeout(timer);
  }
}, [text, mode, processInput, status?.status]);
```

An event is one re-run of this effect: a change to the raw input, the
mode, the model id (through `processInput`'s identity) or the status kind,
carrying the time (ms) at which it happens and the snapshot of the inputs
at that moment.  React first runs the cleanup of the previous run (which
cancels any pending timer), then the body, which schedules a new timer at
`time + 500` iff the status qualifies.  A pending timer fires iff it
reaches its deadline before the next event. -/

/-- The inputs a scheduled `processInput(text)` call closes over. -/
structure Snapshot where
  text : String
  mode : Mode
  modelId : String
deriving DecidableEq, Repr

/-- One re-run of the debounce effect. -/
structure DebEvent where
  time : Nat
  snap : Snapshot
  status : Option StatusVal
deriving DecidableEq, Repr

/-- The effect's guard: `status?.status` is `'ready'`, `'progress'` or
`'error'` (false on a null status). -/
def statusQualifies : Option StatusVal → Bool
  | some (.ready _) => true
  | some (.progress _) => true
  | some (.error _) => true
  | none => false

/-- Effect re-run: the cleanup has already cancelled any pending timer; a
new timer for `time + 500` with the current snapshot is set iff the status
qualifies. -/
def debStep (e : DebEvent) : Option (Nat × Snapshot) :=
  if statusQualifies e.status then some (e.time + 500, e.snap) else none

/-- Run the debounce semantics over an event trace: before each event, the
pending timer fires iff its deadline is at or before the event's time
(otherwise the event's cleanup cancels it); after the last event a pending
timer always fires.  Returns the fired invocations `(deadline, snapshot)`
in order. -/
def runDebounce (pending : Option (Nat × Snapshot)) : List DebEvent → List (Nat × Snapshot)
  | [] => pending.toList
  | e :: rest =>
    (match pending with
     | some (ft, s) => if ft ≤ e.time then [(ft, s)] else []
     | none => []) ++ runDebounce (debStep e) rest

/-- All consecutive gaps in the trace are under 500 ms: every event
arrives before the previous event's timer deadline. -/
def gapsOk : List DebEvent → Bool
  | a :: b :: rest => decide (b.time < a.time + 500) && gapsOk (b :: rest)
  | _ => true

/-- Every event in the trace carries a qualifying status. -/
def allQualify (evs : List DebEvent) : Bool :=
  evs.all (fun e => statusQualifies e.status)

/-! ### Concrete states used by witnesses and counterexamples -/

/-- The component's state after the initial load, with the section-8
response tokens in place. -/
def baseState : AppState :=
  { text := "Hello world. This is a test of the tokenizer."
    modelId := "Qwen/Qwen3-0.6B"
    status := some (.ready "Model set to Qwen/Qwen3-0.6B (Mode: tokenize)")
    tokens := ex8Tokens
    hoveredTokenIndex := none
    hoveredCharIndex := none
    activeTokenIndex := none
    mode := .tokenize
    visualizedText := "Hello world. This is a test of the tokenizer." }

/-! ### Helper lemmas -/

/-- On a nonempty piece, the JS `Number`-plus-`isNaN` conversion agrees
with the declarative optional-leading-minus-then-digits grammar (they
differ only on the empty piece, where `Number("")` is 0). -/
theorem jsNumOfPiece_eq_specPolicyToInt (cs : List Char) (h : cs ≠ []) :
    jsNumOfPiece cs = specPolicyToInt cs := by
  cases cs with
  | nil => exact absurd rfl h
  | cons c rest => rfl

theorem filterMap_eq_on_nonempty (l : List (List Char))
    (h : ∀ x ∈ l, x ≠ []) :
    l.filterMap jsNumOfPiece = l.filterMap specPolicyToInt := by
  induction l with
  | nil => rfl
  | cons a l ih =>
    have ha : a ≠ [] := h a (by simp)
    simp only [List.filterMap_cons, jsNumOfPiece_eq_specPolicyToInt a ha,
      ih (fun x hx => h x (by simp [hx]))]

/-! ### Claim C3 — the decode parsing policy -/

/-- C3 counterexample: on input `"1-2"` the code keeps the interior minus
sign (the regex `[^\d-]` spares every minus) and then discards the piece as
`NaN`, yielding `[]`, whereas the claimed policy — strip every character
that is not a digit or a *leading* minus sign — would strip the interior
minus and yield `[12]`.  The code therefore does not implement the claimed
policy. -/
theorem sanitizeIds_ne_claimed_policy :
    sanitizeIds "1-2" = [] ∧ sanitizeIdsSpecPolicy "1-2" = [12] ∧
    sanitizeIds "1-2" ≠ sanitizeIdsSpecPolicy "1-2" := by
  refine ⟨by decide, by decide, by decide⟩

/-- C3 (amended): the decode input is parsed by splitting on `,`, stripping
from each piece every character that is not a digit or a minus sign (minus
signs are kept wherever they occur), trimming, discarding pieces that
become empty, converting to an integer exactly the pieces consisting of an
optional leading minus followed by digits, and discarding the rest as
non-numeric.  In particular `"101, 7592, 102}"` sanitizes to
`[101, 7592, 102]`, while `"1-2"` sanitizes to `[]`. -/
theorem sanitizeIds_amended_policy (inputVal : String) :
    sanitizeIds inputVal = sanitizeIdsAmended inputVal ∧
    sanitizeIds "101, 7592, 102\x7d" = [101, 7592, 102] ∧
    sanitizeIds "1-2" = [] := by
  refine ⟨?_, by decide, by decide⟩
  unfold sanitizeIds sanitizeIdsAmended
  apply filterMap_eq_on_nonempty
  intro x hx
  have hp := (List.mem_filter.mp hx).2
  intro hnil
  subst hnil
  simp at hp

/-! ### Claim C6 — alignment resolution -/

theorem findTokenIndexAux_eq_none (c : Int) :
    ∀ (ts : List Token) (k : Nat),
      (findTokenIndexAux c ts k = none ↔ ∀ t ∈ ts, covers t c = false) := by
  intro ts
  induction ts with
  | nil => intro k; simp [findTokenIndexAux]
  | cons t ts ih =>
    intro k
    by_cases hc : covers t c = true
    · simp [findTokenIndexAux, hc]
    · simp only [Bool.not_eq_true] at hc
      simp [findTokenIndexAux, hc, ih (k + 1)]

theorem findTokenIndexAux_eq_some (c : Int) :
    ∀ (ts : List Token) (k i : Nat),
      findTokenIndexAux c ts k = some i →
      k ≤ i ∧ ∃ h : i - k < ts.length,
        covers (ts.get ⟨i - k, h⟩) c = true ∧
        ∀ j (hj : j < ts.length), j < i - k → covers (ts.get ⟨j, hj⟩) c = false := by
  intro ts
  induction ts with
  | nil => intro k i h; simp [findTokenIndexAux] at h
  | cons t ts ih =>
    intro k i h
    by_cases hc : covers t c = true
    · simp only [findTokenIndexAux, hc, if_true, Option.some.injEq] at h
      subst h
      refine ⟨Nat.le_refl _, ?_⟩
      rw [Nat.sub_self]
      exact ⟨Nat.succ_pos _, hc, fun j hj hj0 => absurd hj0 (Nat.not_lt_zero j)⟩
    · simp only [findTokenIndexAux, hc, if_false, Bool.not_eq_true] at h
      rw [if_neg (by simp [hc])] at h
      obtain ⟨hki, hlt, hcov, hall⟩ := ih (k + 1) i h
      refine ⟨by omega, ?_⟩
      have hik : i - k = (i - (k + 1)) + 1 := by omega
      rw [hik]
      refine ⟨Nat.succ_lt_succ hlt, hcov, ?_⟩
      intro j hj hjlt
      cases j with
      | zero => simpa using hc
      | succ j' =>
        exact hall j' (Nat.lt_of_succ_lt_succ hj) (by omega)

/-- C6: for every token list and character index `c`, `findTokenIndex`
(the `tokens.findIndex(t => t.start <= c && c < t.end)` resolution used by
`handleCharEnter` and `onCharClick`) returns the first token in list order
whose half-open span satisfies `start <= c < end`, and `none` exactly when
no token covers `c`; tokens without a valid span never cover anything and
are thus skipped without failing.  With the section-8 spans `[0,5)`,
`[5,11)`, `[11,12)`, character index 7 resolves to token index 1. -/
theorem findTokenIndex_resolves (ts : List Token) (c : Int) :
    (findTokenIndex ts c = none ↔ ∀ t ∈ ts, covers t c = false) ∧
    (∀ i, findTokenIndex ts c = some i →
      ∃ h : i < ts.length,
        covers (ts.get ⟨i, h⟩) c = true ∧
        ∀ j (hj : j < ts.length), j < i → covers (ts.get ⟨j, hj⟩) c = false) ∧
    (∀ t : Token, t.start = none ∨ t.stop = none → covers t c = false) ∧
    findTokenIndex ex8Tokens 7 = some 1 := by
  refine ⟨findTokenIndexAux_eq_none c ts 0, ?_, ?_, by decide⟩
  · intro i h
    obtain ⟨-, hlt, hcov, hall⟩ := findTokenIndexAux_eq_some c ts 0 i h
    exact ⟨hlt, hcov, hall⟩
  · intro t ht
    obtain ⟨tid, ttext, tstart, tstop⟩ := t
    rcases ht with h | h
    all_goals simp only at h
    all_goals subst h
    · rfl
    · cases tstart <;> rfl

/-- C6 witness: instantiating the resolution theorem at the section-8
token list and character index 7. -/
theorem findTokenIndex_resolves_witness :
    findTokenIndex ex8Tokens 7 = some 1 ∧
    covers (ex8Tokens.get ⟨1, by decide⟩) 7 = true := by
  have h := findTokenIndex_resolves ex8Tokens 7
  obtain ⟨hlt, hcov, -⟩ := h.2.1 1 h.2.2.2
  exact ⟨h.2.2.2, hcov⟩

/-! ### Claim C7 — decode-mode silent no-op -/

/-- C7: in decode mode, when the raw input is non-blank (trimming leaves
something) but sanitizes to an empty ID list, `processInput` returns
before the `fetch`: no request is dispatched and the state — token list,
visualized text and status included — is exactly the previous state. -/
theorem decode_sanitize_empty_noop (st : AppState)
    (capturedModelId inputVal : String)
    (hblank : jsTrim inputVal.data ≠ [])
    (hids : sanitizeIds inputVal = []) :
    processInputSync .decode capturedModelId inputVal st =
      { state := st, request := none } := by
  have hne : inputVal ≠ "" := by
    intro h
    subst h
    exact hblank rfl
  simp [processInputSync, hne, hids, hblank]

/-- C7 witness: the spec's scenario input `"abc,"` in decode mode is a
silent no-op. -/
theorem decode_sanitize_empty_noop_witness :
    processInputSync Mode.decode "Qwen/Qwen3-0.6B" "abc," baseState =
      { state := baseState, request := none } :=
  decode_sanitize_empty_noop baseState "Qwen/Qwen3-0.6B" "abc,"
    (by decide) (by decide)

/-! ### Claim C8 — empty raw input -/

/-- C8: when the raw input is empty at the end of the debounce window, no
request is dispatched, the token list and visualized text are cleared,
and the status becomes `ready`/`"Ready"` when it was `progress` or
`error`, while an existing `ready` message is preserved unchanged. -/
theorem empty_input_clears (st : AppState) (capturedMode : Mode)
    (capturedModelId : String) :
    (processInputSync capturedMode capturedModelId "" st).request = none ∧
    (processInputSync capturedMode capturedModelId "" st).state.tokens = [] ∧
    (processInputSync capturedMode capturedModelId "" st).state.visualizedText = "" ∧
    (∀ msg, st.status = some (.progress msg) →
      (processInputSync capturedMode capturedModelId "" st).state.status
        = some (.ready "Ready")) ∧
    (∀ msg, st.status = some (.error msg) →
      (processInputSync capturedMode capturedModelId "" st).state.status
        = some (.ready "Ready")) ∧
    (∀ msg, st.status = some (.ready msg) →
      (processInputSync capturedMode capturedModelId "" st).state.status
        = some (.ready msg)) := by
  refine ⟨?_, ?_, ?_, ?_, ?_, ?_⟩
  · simp [processInputSync]
  · simp [processInputSync]
  · simp [processInputSync]
  all_goals intro msg h
  all_goals simp [processInputSync, emptyInputStatusUpdate, h]

/-- The base state with an error status, for the C8 witness. -/
def errorState : AppState := { baseState with status := some (.error "boom") }

/-- C8 witness: with a previous `error` status the empty input resets the
status to `ready`/`"Ready"`; with a previous informational `ready` status
the message is preserved; tokens are cleared either way. -/
theorem empty_input_clears_witness :
    (processInputSync Mode.tokenize "M" "" errorState).state.status
      = some (.ready "Ready") ∧
    (processInputSync Mode.tokenize "M" "" baseState).state.status
      = some (.ready "Model set to Qwen/Qwen3-0.6B (Mode: tokenize)") ∧
    (processInputSync Mode.tokenize "M" "" baseState).state.tokens = [] ∧
    (processInputSync Mode.tokenize "M" "" baseState).request = none := by
  refine ⟨(empty_input_clears errorState Mode.tokenize "M").2.2.2.2.1 "boom" rfl,
    (empty_input_clears baseState Mode.tokenize "M").2.2.2.2.2
      "Model set to Qwen/Qwen3-0.6B (Mode: tokenize)" rfl,
    (empty_input_clears baseState Mode.tokenize "M").2.1,
    (empty_input_clears baseState Mode.tokenize "M").1⟩

/-! ### Claim C9 — click toggle law -/

/-- C9: clicking a token chip that is not the active selection selects it,
and clicking the same chip again returns the active selection to none and
also clears the hovered token; clicking a character resolving to a token
behaves the same way through the resolved index. -/
theorem click_toggle_law (st : AppState) (i : Nat)
    (hne : st.activeTokenIndex ≠ some i) :
    ((onTokenClick st i).1.activeTokenIndex = some i ∧
     (onTokenClick (onTokenClick st i).1 i).1.activeTokenIndex = none ∧
     (onTokenClick (onTokenClick st i).1 i).1.hoveredTokenIndex = none) ∧
    (∀ c ti, findTokenIndex st.tokens c = some ti →
      st.activeTokenIndex ≠ some ti →
      (onCharClick st c).1.activeTokenIndex = some ti ∧
      (onCharClick (onCharClick st c).1 c).1.activeTokenIndex = none ∧
      (onCharClick (onCharClick st c).1 c).1.hoveredTokenIndex = none) := by
  constructor
  · simp [onTokenClick, hne]
  · intro c ti hres hne2
    have h1 : onCharClick st c =
        ({ st with activeTokenIndex := some ti }, some (.tokenAt ti)) := by
      simp [onCharClick, hres, hne2]
    rw [h1]
    simp [onCharClick, hres]

/-- C9 witness: in the base state, clicking chip 0 twice restores the
empty selection, and clicking the character at index 7 (resolving to
token 1) twice does too. -/
theorem click_toggle_law_witness :
    (onTokenClick baseState 0).1.activeTokenIndex = some 0 ∧
    (onTokenClick (onTokenClick baseState 0).1 0).1.activeTokenIndex = none ∧
    (onCharClick baseState 7).1.activeTokenIndex = some 1 ∧
    (onCharClick (onCharClick baseState 7).1 7).1.activeTokenIndex = none := by
  have h := click_toggle_law baseState 0 (by decide)
  have h2 := h.2 7 1 (by decide) (by decide)
  exact ⟨h.1.1, h.1.2.1, h2.1, h2.2.1⟩

/-! ### Claim C10 — dangling selection indices are harmless -/

/-- A reachable state with dangling indices: hover and selection set, then
the mode switch clears the token list without resetting them. -/
def danglingState : AppState :=
  switchMode .decode
    { baseState with hoveredTokenIndex := some 1, activeTokenIndex := some 2 }

/-- C10: a hovered or active index with no token behind it is harmless:
the span test guarded by `tokens[idx]` yields no highlight for a dangling
index, so when both indices dangle no character is highlighted; the
token-click scroll effect is produced only when the indexed token exists
and has a numeric `start`; and the mode switch indeed clears the token
list while leaving both selection indices untouched, so such states
arise. -/
theorem dangling_index_safe (st : AppState) (m : Mode) (hi ai : Nat) (c : Int) :
    (st.tokens[hi]? = none → spanHas st.tokens (some hi) c = false) ∧
    (st.hoveredTokenIndex = some hi → st.tokens[hi]? = none →
     st.activeTokenIndex = some ai → st.tokens[ai]? = none →
     isHighlightedChar st c = false) ∧
    (∀ tgt, (onTokenClick st hi).2 = some tgt →
      ∃ t s, st.tokens[hi]? = some t ∧ t.start = some s ∧
        tgt = ScrollTarget.charAt s) ∧
    ((switchMode m st).activeTokenIndex = st.activeTokenIndex ∧
     (switchMode m st).hoveredTokenIndex = st.hoveredTokenIndex ∧
     (switchMode m st).tokens = []) := by
  refine ⟨?_, ?_, ?_, rfl, rfl, rfl⟩
  · intro h
    simp [spanHas, h]
  · intro hh hhn ha han
    simp [isHighlightedChar, isActiveChar, spanHas, hh, ha, hhn, han]
  · intro tgt htgt
    unfold onTokenClick at htgt
    by_cases hact : st.activeTokenIndex = some hi
    · rw [if_pos hact] at htgt
      simp at htgt
    · rw [if_neg hact] at htgt
      cases hget : st.tokens[hi]? with
      | none => rw [hget] at htgt; simp at htgt
      | some t =>
        rw [hget] at htgt
        simp only [Option.some_bind] at htgt
        cases hstart : t.start with
        | none => rw [hstart] at htgt; simp at htgt
        | some s =>
          rw [hstart] at htgt
          simp only [Option.map_some'] at htgt
          exact ⟨t, s, rfl, hstart, (Option.some.inj htgt).symm⟩

/-- C10 witness: in the state reached by selecting token 2 and hovering
token 1 and then switching mode (which clears the tokens), no character is
highlighted and the dangling hovered index contributes no span; and in the
base state the token-click scroll fires with an existing token's numeric
start. -/
theorem dangling_index_safe_witness :
    isHighlightedChar danglingState 0 = false ∧
    spanHas danglingState.tokens (some 1) 0 = false ∧
    (∃ t s, baseState.tokens[0]? = some t ∧ t.start = some s ∧
      ScrollTarget.charAt 0 = ScrollTarget.charAt s) := by
  have h := dangling_index_safe danglingState Mode.tokenize 1 2 0
  have h3 := (dangling_index_safe baseState Mode.tokenize 0 0 0).2.2.1
    (ScrollTarget.charAt 0) (by decide)
  exact ⟨h.2.1 rfl rfl rfl rfl, h.1 rfl, h3⟩

/-! ### Claim C4 — failure handling -/

/-- C4 counterexample: a non-ok response whose body carries the present but
empty `detail` string is NOT reproduced verbatim — `errorData.detail ||
'Failed to process'` treats the empty string as falsy and substitutes the
generic message. -/
theorem failure_detail_empty_not_verbatim :
    (applyResponse .tokenize (.httpError (some "")) baseState).status
      = some (.error "Failed to process") ∧
    "Failed to process" ≠ "" := by
  exact ⟨rfl, by decide⟩

/-- C4 (amended): on a failed request the status becomes `error` carrying
the server `detail` verbatim when it is present AND non-empty, and the
generic message `"Failed to process"` when the detail is absent or empty;
a transport error carries the thrown message; in every failure case the
token list and the visualized text are left unaltered. -/
theorem failure_no_partial_update (st : AppState) (m : Mode)
    (detail : Option String) (msg : String) :
    ((applyResponse m (.httpError detail) st).tokens = st.tokens ∧
     (applyResponse m (.httpError detail) st).visualizedText = st.visualizedText ∧
     (applyResponse m (.httpError detail) st).status
       = some (.error (failureMessage detail)) ∧
     (∀ d, detail = some d → d ≠ "" → failureMessage detail = d) ∧
     (detail = none ∨ detail = some "" →
       failureMessage detail = "Failed to process")) ∧
    ((applyResponse m (.transportError msg) st).tokens = st.tokens ∧
     (applyResponse m (.transportError msg) st).visualizedText = st.visualizedText ∧
     (applyResponse m (.transportError msg) st).status = some (.error msg)) := by
  refine ⟨⟨rfl, rfl, rfl, ?_, ?_⟩, rfl, rfl, rfl⟩
  · intro d hd hne
    subst hd
    simp [failureMessage, hne]
  · intro hd
    rcases hd with hd | hd <;> subst hd <;> simp [failureMessage]

/-- C4 witness: a concrete 503-style failure with detail `"oops"` keeps
the base state's tokens and visualized text and surfaces the detail
verbatim; a failure with empty detail surfaces the generic message. -/
theorem failure_no_partial_update_witness :
    (applyResponse Mode.tokenize (.httpError (some "oops")) baseState).tokens
      = baseState.tokens ∧
    failureMessage (some "oops") = "oops" ∧
    failureMessage (some "") = "Failed to process" := by
  have h := failure_no_partial_update baseState Mode.tokenize (some "oops") "x"
  have h2 := failure_no_partial_update baseState Mode.tokenize (some "") "x"
  exact ⟨h.1.1, h.1.2.2.2.1 "oops" rfl (by decide), h2.1.2.2.2.2 (Or.inr rfl)⟩

/-! ### Claim C1 — the stale-response race -/

/-- Tokens returned by the older in-flight request A. -/
def tokListA : List Token :=
  [ { id := 10, text := "A", start := some 0, stop := some 1 } ]

/-- Tokens returned by the newer in-flight request B. -/
def tokListB : List Token :=
  [ { id := 20, text := "B", start := some 0, stop := some 1 } ]

/-- C1: the code contradicts the claim.  `processInput` applies whatever
response arrives, with no request-generation or abort guard: with requests
A (older) and B (newer) both in flight and B's response applied first
(`setTokens(data.tokens)`), A's response is then applied as well, so the
final token list is A's, not B's. -/
theorem stale_response_overwrites :
    (applyResponse .tokenize (.success tokListA "")
      (applyResponse .tokenize (.success tokListB "") baseState)).tokens
      = tokListA ∧
    tokListA ≠ tokListB := by
  exact ⟨rfl, by decide⟩

/-! ### Claim C5 — the tokenize visualized-text invariant -/

/-- The state while a decode request is in flight. -/
def decodeModeState : AppState :=
  { baseState with
    mode := .decode
    text := "101, 7592, 102"
    visualizedText := "" }

/-- The state after: (1) the user switches the mode select to `tokenize`
(clearing text, tokens and visualized text); (2) the sync effect runs on
the `[text, mode]` change; (3) the still-in-flight decode response (whose
closure captured `mode === 'decode'`) arrives and is applied.  The sync
effect does not run again afterwards, because neither `text` nor `mode`
changed in step (3). -/
def staleDecodeFinal : AppState :=
  applyResponse .decode (.success ex8Tokens "decoded text")
    (syncVisualizedText (switchMode .tokenize decodeModeState))

/-- C5: the code contradicts the claim.  A late decode response applied
after a switch to tokenize mode leaves the component in tokenize mode with
the visualized text taken from the response (`"decoded text"`) while the
raw input is `""` — the invariant `visualizedText = text` is broken in a
reachable tokenize-mode state. -/
theorem late_decode_breaks_tokenize_invariant :
    staleDecodeFinal.mode = .tokenize ∧
    staleDecodeFinal.visualizedText = "decoded text" ∧
    staleDecodeFinal.text = "" ∧
    staleDecodeFinal.visualizedText ≠ staleDecodeFinal.text := by
  refine ⟨rfl, rfl, rfl, by decide⟩

/-! ### Claim C2 — debounce -/

/-- The snapshot of a window whose settled raw input is empty. -/
def emptySnapshot : Snapshot :=
  { text := "", mode := .tokenize, modelId := "Qwen/Qwen3-0.6B" }

/-- A single qualifying change event clearing the raw input. -/
def emptyChangeEvent : DebEvent :=
  { time := 0, snap := emptySnapshot, status := some (.ready "Ready") }

/-- C2 counterexample: a settled debounce window CAN dispatch zero external
calls.  A single change that clears the raw input fires exactly one
`processInput` invocation 500 ms later, but that invocation returns before
the `fetch`: no external call is dispatched, contradicting "exactly one
external call is dispatched" for every settled window. -/
theorem debounce_not_always_one_call :
    runDebounce none [emptyChangeEvent] = [(500, emptySnapshot)] ∧
    (processInputSync emptySnapshot.mode emptySnapshot.modelId
      emptySnapshot.text baseState).request = none := by
  exact ⟨rfl, rfl⟩

/-- When exactly does the synchronous part of `processInput` dispatch no
request: the input is empty, or the mode is decode and a non-blank input
sanitized to an empty ID list. -/
theorem processInputSync_request_none_iff (m : Mode) (mid inputVal : String)
    (st : AppState) :
    (processInputSync m mid inputVal st).request = none ↔
      (inputVal = "" ∨
        (m = .decode ∧ sanitizeIds inputVal = [] ∧ jsTrim inputVal.data ≠ [])) := by
  by_cases he : inputVal = ""
  · simp [processInputSync, he]
  · cases m with
    | tokenize => simp [processInputSync, he]
    | decode =>
      by_cases hn : sanitizeIds inputVal = [] ∧ jsTrim inputVal.data ≠ []
      · simp [processInputSync, he, hn]
      · simp [processInputSync, he, hn]

/-- After the first qualifying event armed the timer, every further event
arriving within 500 ms cancels and re-arms it, so only the last event's
timer fires, with the last event's snapshot. -/
theorem runDebounce_fires_last :
    ∀ (rest : List DebEvent) (prev : DebEvent),
      gapsOk (prev :: rest) = true → allQualify rest = true →
      runDebounce (some (prev.time + 500, prev.snap)) rest
        = [((rest.getLastD prev).time + 500, (rest.getLastD prev).snap)] := by
  intro rest
  induction rest with
  | nil => intro prev _ _; rfl
  | cons b rest ih =>
    intro prev hg hq
    rw [gapsOk, Bool.and_eq_true, decide_eq_true_eq] at hg
    obtain ⟨hgap, hg2⟩ := hg
    rw [allQualify, List.all_cons, Bool.and_eq_true] at hq
    obtain ⟨hqb, hq2⟩ := hq
    rw [List.getLastD_cons]
    show (if prev.time + 500 ≤ b.time then [(prev.time + 500, prev.snap)] else [])
        ++ runDebounce (debStep b) rest
      = [((rest.getLastD b).time + 500, (rest.getLastD b).snap)]
    rw [if_neg (by omega), debStep, if_pos hqb, List.nil_append]
    exact ih b hg2 hq2

/-- C2 (amended): for every nonempty sequence of qualifying change events
in which each event arrives within 500 ms of the previous one, exactly one
`processInput` invocation fires, 500 ms after the last change and with the
snapshot present at the end of the window (any earlier pending timer is
cancelled and re-armed by the next change); the invocation dispatches an
external call unless the settled input is empty or is a decode-mode input
that is non-blank yet sanitizes to an empty ID list; and a timer is armed
only by events whose status is `ready`, `progress` or `error`. -/
theorem debounce_single_invocation (e : DebEvent) (rest : List DebEvent)
    (st : AppState)
    (hgaps : gapsOk (e :: rest) = true)
    (hqual : allQualify (e :: rest) = true) :
    runDebounce none (e :: rest)
      = [((rest.getLastD e).time + 500, (rest.getLastD e).snap)] ∧
    ((processInputSync (rest.getLastD e).snap.mode (rest.getLastD e).snap.modelId
        (rest.getLastD e).snap.text st).request = none ↔
      ((rest.getLastD e).snap.text = "" ∨
        ((rest.getLastD e).snap.mode = .decode ∧
          sanitizeIds (rest.getLastD e).snap.text = [] ∧
          jsTrim (rest.getLastD e).snap.text.data ≠ []))) ∧
    (∀ e' : DebEvent, debStep e' ≠ none → statusQualifies e'.status = true) := by
  rw [allQualify, List.all_cons, Bool.and_eq_true] at hqual
  obtain ⟨hqe, hqrest⟩ := hqual
  refine ⟨?_, processInputSync_request_none_iff _ _ _ _, ?_⟩
  · show (Option.toList (α := Nat × Snapshot) none
        |>.append (runDebounce (debStep e) rest)) = _
    rw [debStep, if_pos hqe]
    simpa using runDebounce_fires_last rest e hgaps hqrest
  · intro e' h
    cases hsq : statusQualifies e'.status with
    | true => rfl
    | false =>
      rw [debStep, if_neg (by rw [hsq]; exact Bool.false_ne_true)] at h
      exact absurd rfl h

/-- The three edits of an example debounce window. -/
def snapA : Snapshot := { text := "Hel", mode := .tokenize, modelId := "M" }

def snapB : Snapshot := { text := "Hell", mode := .tokenize, modelId := "M" }

def snapC : Snapshot := { text := "Hello", mode := .tokenize, modelId := "M" }

def eventA : DebEvent := { time := 0, snap := snapA, status := some (.ready "Ready") }

def eventB : DebEvent := { time := 100, snap := snapB, status := some (.ready "Ready") }

def eventC : DebEvent := { time := 450, snap := snapC, status := some (.ready "Ready") }

/-- C2 witness: three edits at 0, 100 and 450 ms, each within 500 ms of
the previous, yield exactly one invocation, at 950 ms, with the final
snapshot; that invocation dispatches the tokenize request for
`"Hello"`. -/
theorem debounce_single_invocation_witness :
    runDebounce none [eventA, eventB, eventC] = [(950, snapC)] ∧
    (processInputSync snapC.mode snapC.modelId snapC.text baseState).request
      = some (.tokenizeReq "Hello" "M") := by
  have h := debounce_single_invocation eventA [eventB, eventC] baseState
    (by decide) (by decide)
  exact ⟨h.1.trans (by decide), by decide⟩
